import Mathlib

/-!
Verification of the dump actor of `meilisearch-http`
(`src/index_controller/dump_actor/actor.rs`).

The development shallowly embeds the actor:

* `generate_uid` is the pure timestamp formatter `%Y%m%d-%H%M%S%3f`
  (wall-clock time becomes an explicit `DateTimeMs` argument);
* the `dump_infos` hash map becomes an association list with
  `lookupInfo` / `insertInfo` / `updateInfo`;
* `handle_dump_info` is the pure registry lookup;
* the concurrent `handle_create_dump` handlers (run by
  `for_each_concurrent`) become a labelled small-step transition system
  `Step` over a system state `Sys`: each atomic action of the Rust
  function (the `try_lock` attempt, the registry insert, the oneshot
  reply, the inline `tokio::task::spawn(task.run()).await`, and the
  final registry transition that also drops the `_lock` guard at the
  end of the function body) is one step.  A `oneshot::Sender::send`
  whose receiver was dropped fails; `.expect(msg)` on that failure is a
  panic, recorded in `Sys.panicked` (a panicked future makes no further
  steps).
-/

/-! ## Data model -/

/-- Modelled from the spec: state of one dump attempt
(`DumpStatus` lives in `dump_actor/mod.rs`, outside the excerpt):
one of `Done`, `InProgress`, `Failed`. -/
inductive DumpStatus
  | done
  | inProgress
  | failed
deriving DecidableEq, Repr

/-- Modelled from the spec: the Dump Status Record
(`DumpInfo` lives in `dump_actor/mod.rs`, outside the excerpt):
`{ identifier, state, error_message? }`.  The two wall-clock fields
`started_at` / `finished_at` carry no information used by any claim and
are omitted. -/
structure DumpInfo where
  uid : String
  status : DumpStatus
  error : Option String
deriving DecidableEq, Repr

/-- Modelled from the spec: `DumpInfo::new(uid, status)` creates a
record with no error message. -/
def DumpInfo.new (uid : String) (status : DumpStatus) : DumpInfo :=
  ⟨uid, status, none⟩

/-- Modelled from the spec: `DumpInfo::done` transitions the record to
`Done`. -/
def DumpInfo.done (i : DumpInfo) : DumpInfo :=
  { i with status := DumpStatus.done }

/-- Modelled from the spec: `DumpInfo::with_error` transitions the
record to `Failed`, recording the message. -/
def DumpInfo.with_error (i : DumpInfo) (e : String) : DumpInfo :=
  { i with status := DumpStatus.failed, error := some e }

/-- Modelled from the spec: the error taxonomy of `DumpError`
(`dump_actor/error.rs`, outside the excerpt): the two variants the
actor itself produces. -/
inductive DumpError
  | dumpAlreadyRunning
  | dumpDoesNotExist (uid : String)
deriving DecidableEq, Repr

/-- Embedding of `DumpResult<T> = Result<T, DumpError>`. -/
abbrev DumpResult (α : Type) := Except DumpError α

/-! ## The status registry (`dump_infos : HashMap<String, DumpInfo>`)

The hash map is embedded as an association list with the usual
`HashMap` semantics: `insert` replaces any existing binding of the key,
`get_mut` mutates the bound value in place. -/

/-- Embedding of `HashMap::get` on the registry. -/
def lookupInfo : List (String × DumpInfo) → String → Option DumpInfo
  | [], _ => none
  | p :: rest, u => if p.1 = u then some p.2 else lookupInfo rest u

/-- Embedding of `HashMap::insert`: the new binding shadows any older
binding of the same key, since `lookupInfo` scans from the front (the
actor in fact only ever inserts keys that are absent, see the `fresh`
invariant below). -/
def insertInfo (m : List (String × DumpInfo)) (k : String) (v : DumpInfo) :
    List (String × DumpInfo) :=
  (k, v) :: m

/-- Embedding of `HashMap::get_mut` followed by an in-place mutation of
the bound record. -/
def updateInfo (m : List (String × DumpInfo)) (k : String)
    (f : DumpInfo → DumpInfo) : List (String × DumpInfo) :=
  m.map (fun p => if p.1 = k then (p.1, f p.2) else p)

/-- Embedding of `handle_dump_info` (actor.rs:152-157): look the uid up
in the registry, `Ok` on a hit, `DumpDoesNotExist` otherwise. -/
def handle_dump_info (infos : List (String × DumpInfo)) (uid : String) :
    DumpResult DumpInfo :=
  match lookupInfo infos uid with
  | some info => Except.ok info
  | none => Except.error (DumpError.dumpDoesNotExist uid)

/-! ## Identifier generation (`generate_uid`, actor.rs:31-34)

`Utc::now().format("%Y%m%d-%H%M%S%3f")`: the current wall-clock time
becomes the explicit argument `t : DateTimeMs`; each chrono field
specifier zero-pads its field to a fixed width (4 for `%Y` on
four-digit years, 2 for `%m %d %H %M %S`, 3 for `%3f`). -/

/-- Wall-clock instant at millisecond resolution, as the calendar
fields chrono's formatter consumes. -/
structure DateTimeMs where
  year : Nat
  month : Nat
  day : Nat
  hour : Nat
  minute : Nat
  second : Nat
  milli : Nat
deriving DecidableEq, Repr

/-- ASCII digit character for `d % 10`. -/
def digitChar (d : Nat) : Char := Char.ofNat (48 + d % 10)

/-- Zero-padded fixed-width decimal rendering: `pad w n` is the last
`w` decimal digits of `n`, most significant first (for `n < 10 ^ w`,
exactly `n` zero-padded to width `w`). -/
def pad : Nat → Nat → List Char
  | 0, _ => []
  | w + 1, n => pad w (n / 10) ++ [digitChar (n % 10)]

/-- Character list of `generate_uid` at instant `t`, associated so that
common prefixes strip off block by block. -/
def uidChars (t : DateTimeMs) : List Char :=
  pad 4 t.year ++ (pad 2 t.month ++ (pad 2 t.day ++ ('-' ::
    (pad 2 t.hour ++ (pad 2 t.minute ++ (pad 2 t.second ++ pad 3 t.milli))))))

/-- Embedding of `generate_uid` (actor.rs:31-34): format the instant
`t` as `%Y%m%d-%H%M%S%3f`. -/
def generate_uid (t : DateTimeMs) : String := String.mk (uidChars t)

/-- Field bounds under which every chrono specifier stays inside its
fixed width (true of every valid calendar datetime with a four-digit
year). -/
def DateTimeMs.inRange (t : DateTimeMs) : Prop :=
  t.year < 10000 ∧ t.month < 100 ∧ t.day < 100 ∧ t.hour < 100 ∧
    t.minute < 100 ∧ t.second < 100 ∧ t.milli < 1000

instance (t : DateTimeMs) : Decidable t.inRange := by
  unfold DateTimeMs.inRange; infer_instance

/-- Chronological strict order at millisecond resolution: for calendar
datetimes this is the lexicographic order on the fields, and `t₁` is
earlier than `t₂` by at least one millisecond iff `t₁.chronoLt t₂`. -/
def DateTimeMs.chronoLt (a b : DateTimeMs) : Prop :=
  a.year < b.year ∨ (a.year = b.year ∧ (a.month < b.month ∨ (a.month = b.month ∧
    (a.day < b.day ∨ (a.day = b.day ∧ (a.hour < b.hour ∨ (a.hour = b.hour ∧
      (a.minute < b.minute ∨ (a.minute = b.minute ∧ (a.second < b.second ∨
        (a.second = b.second ∧ a.milli < b.milli)))))))))))

instance (a b : DateTimeMs) : Decidable (a.chronoLt b) := by
  unfold DateTimeMs.chronoLt; infer_instance

/-! ### Lexicographic order facts for the uid format -/

theorem pad_length (w : Nat) : ∀ n, (pad w n).length = w := by
  induction w with
  | zero => intro n; rfl
  | succ w ih => intro n; simp [pad, ih]

theorem digitChar_lt {a b : Nat} (hab : a < b) (hb : b < 10) :
    digitChar a < digitChar b := by
  interval_cases b <;> interval_cases a <;> decide

theorem lex_append_of_length_eq {l₁ l₂ s₁ s₂ : List Char}
    (hlen : l₁.length = l₂.length) (h : List.Lex (· < ·) l₁ l₂) :
    List.Lex (· < ·) (l₁ ++ s₁) (l₂ ++ s₂) := by
  revert hlen
  induction h with
  | nil => intro hlen; simp at hlen
  | @cons a t₁ t₂ _ ih =>
      intro hlen
      exact List.Lex.cons (ih (by simpa using hlen))
  | rel hr => intro _; exact List.Lex.rel hr

theorem lex_append_left (l : List Char) {s₁ s₂ : List Char}
    (h : List.Lex (· < ·) s₁ s₂) :
    List.Lex (· < ·) (l ++ s₁) (l ++ s₂) := by
  induction l with
  | nil => simpa using h
  | cons a t ih => exact List.Lex.cons ih

theorem pad_lt {w a b : Nat} (hab : a < b) (hb : b < 10 ^ w) :
    List.Lex (· < ·) (pad w a) (pad w b) := by
  induction w generalizing a b with
  | zero =>
      exfalso
      simp [pow_zero] at hb
      omega
  | succ w ih =>
      rw [pad, pad]
      rcases Nat.lt_or_ge (a / 10) (b / 10) with hq | hq
      · refine lex_append_of_length_eq (by rw [pad_length, pad_length]) (ih hq ?_)
        have h1 : (10 : Nat) ^ (w + 1) = 10 ^ w * 10 := pow_succ 10 w
        exact Nat.div_lt_of_lt_mul (by omega)
      · have hq' : a / 10 = b / 10 :=
          Nat.le_antisymm (Nat.div_le_div_right (Nat.le_of_lt hab)) hq
        have hm : a % 10 < b % 10 := by
          have ha10 := Nat.div_add_mod a 10
          have hb10 := Nat.div_add_mod b 10
          omega
        rw [hq']
        exact lex_append_left _ (List.Lex.rel (digitChar_lt hm (Nat.mod_lt _ (by omega))))

theorem uidChars_lex {t₁ t₂ : DateTimeMs} (h₁ : t₁.inRange) (h₂ : t₂.inRange)
    (hlt : t₁.chronoLt t₂) :
    List.Lex (· < ·) (uidChars t₁) (uidChars t₂) := by
  obtain ⟨hy1, hmo1, hd1, hh1, hmi1, hs1, hms1⟩ := h₁
  obtain ⟨hy2, hmo2, hd2, hh2, hmi2, hs2, hms2⟩ := h₂
  unfold uidChars
  rcases hlt with hy | ⟨hy, hrest⟩
  · exact lex_append_of_length_eq (by rw [pad_length, pad_length]) (pad_lt hy hy2)
  rw [hy]
  refine lex_append_left _ ?_
  rcases hrest with hmo | ⟨hmo, hrest⟩
  · exact lex_append_of_length_eq (by rw [pad_length, pad_length]) (pad_lt hmo hmo2)
  rw [hmo]
  refine lex_append_left _ ?_
  rcases hrest with hd | ⟨hd, hrest⟩
  · exact lex_append_of_length_eq (by rw [pad_length, pad_length]) (pad_lt hd hd2)
  rw [hd]
  refine lex_append_left _ ?_
  refine List.Lex.cons ?_
  rcases hrest with hh | ⟨hh, hrest⟩
  · exact lex_append_of_length_eq (by rw [pad_length, pad_length]) (pad_lt hh hh2)
  rw [hh]
  refine lex_append_left _ ?_
  rcases hrest with hmi | ⟨hmi, hrest⟩
  · exact lex_append_of_length_eq (by rw [pad_length, pad_length]) (pad_lt hmi hmi2)
  rw [hmi]
  refine lex_append_left _ ?_
  rcases hrest with hs | ⟨hs, hms⟩
  · exact lex_append_of_length_eq (by rw [pad_length, pad_length]) (pad_lt hs hs2)
  rw [hs]
  exact lex_append_left _ (pad_lt hms hms2)

example : generate_uid ⟨2021, 6, 15, 12, 0, 0, 123⟩ = "20210615-120000123" := by
  decide

/-- C9: identifier generation is the millisecond-resolution formatting
`%Y%m%d-%H%M%S%3f` of the wall-clock time (the definition
`generate_uid`), and it is strictly monotone for lexicographic order:
for instants `t₁` chronologically before `t₂` by at least one
millisecond (`chronoLt` at millisecond resolution), within four-digit
years (`inRange`), the identifier generated at `t₁` is lexicographically
smaller than the one generated at `t₂`. -/
theorem generate_uid_lex_monotone (t₁ t₂ : DateTimeMs)
    (h₁ : t₁.inRange) (h₂ : t₂.inRange) (hlt : t₁.chronoLt t₂) :
    generate_uid t₁ < generate_uid t₂ := by
  rw [String.lt_iff_toList_lt]
  exact uidChars_lex h₁ h₂ hlt

/-- Witness for C9: two concrete instants one millisecond apart. -/
theorem generate_uid_lex_monotone_witness :
    generate_uid ⟨2021, 6, 15, 12, 0, 0, 123⟩ < generate_uid ⟨2021, 6, 15, 12, 0, 0, 124⟩ :=
  generate_uid_lex_monotone ⟨2021, 6, 15, 12, 0, 0, 123⟩ ⟨2021, 6, 15, 12, 0, 0, 124⟩
    (by decide) (by decide) (by decide)

/-! ## Oneshot reply channels

A `oneshot::Sender::send` fails exactly when the receiver was already
dropped; `.expect(msg)` on that failure panics with `msg`, while
`let _ = ...` discards the failure silently. -/

/-- Embedding of `oneshot::Sender::send`: delivery succeeds iff the
receiving half is still alive. -/
def oneshotSend {α : Type} (alive : Bool) (v : α) : Except α Unit :=
  if alive then Except.ok () else Except.error v

/-- Embedding of `Result::expect msg` on a send result: `some msg` is a
panic with that message, `none` is normal continuation. -/
def expectSend {α : Type} (r : Except α Unit) (msg : String) : Option String :=
  match r with
  | Except.ok () => none
  | Except.error _ => some msg

/-- Embedding of `let _ = ...` on a send result: the failure is
discarded, there is never a panic. -/
def ignoreSend {α : Type} (_r : Except α Unit) : Option String := none

/-- Embedding of the `DumpMsg::DumpInfo` arm of `handle_message`
(actor.rs:94-96): `let _ = ret.send(self.handle_dump_info(uid).await)`,
returning the panic outcome of the arm (always `none`). -/
def handleDumpInfoMsg (infos : List (String × DumpInfo)) (uid : String)
    (alive : Bool) : Option String :=
  ignoreSend (oneshotSend alive (handle_dump_info infos uid))

/-! ## The concurrent create-dump handlers as a transition system

`run` feeds up to `CONCURRENT_DUMP_MSG` messages concurrently into
`handle_message`; each `CreateDump` message becomes one handler future
executing `handle_create_dump`.  A handler is a program counter plus
the data fixed at its start: the generated uid, whether its oneshot
receiver is still alive, and the (predetermined) outcome of its dump
task.  The atomic actions of `handle_create_dump`, in source order:

* `tryLock` — about to run `self.lock.try_lock()` (actor.rs:104);
* `insert` — holds the gate, about to run
  `self.dump_infos.write().await.insert(uid, info)` (actor.rs:113);
* `reply` — about to run `ret.send(Ok(info)).expect(..)` (actor.rs:118);
* `await` — inside `tokio::task::spawn(task.run()).await`
  (actor.rs:129), the dump task is in flight;
* `finish` — the task resolved, about to take the registry write lock,
  `get_mut(&uid).expect(..)` and apply the status transition, after
  which the function body ends and the `_lock` guard drops
  (actor.rs:131-148);
* `doneOk` — the accepted flow completed;
* `rejected` — the fast-reject flow completed. -/

/-- Result of awaiting `tokio::task::spawn(task.run())`
(actor.rs:129): `Ok(Ok(()))` success, `Ok(Err(e))` typed failure, or
`Err(_)` a `JoinError` — the spawned task panicked and the panic was
contained at the task-supervision boundary. -/
inductive TaskOutcome
  | success
  | failure (e : String)
  | panicked
deriving DecidableEq, Repr

inductive Pc
  | tryLock
  | insert
  | reply
  | await
  | finish
  | doneOk
  | rejected
deriving DecidableEq, Repr

deriving instance DecidableEq for Except

/-- One in-flight (or finished) `handle_create_dump` invocation. -/
structure Handler where
  pc : Pc
  uid : String
  replyAlive : Bool
  outcome : TaskOutcome
  replied : Option (DumpResult DumpInfo)
deriving DecidableEq, Repr

/-- State of the whole actor: the Exclusion Gate
(`lock : Arc<Mutex<()>>`, held or free), the status registry
(`dump_infos`), the handler futures, and whether some handler panicked
(`none` while the actor is healthy; a panicked actor makes no further
steps). -/
structure Sys where
  lock : Bool
  infos : List (String × DumpInfo)
  handlers : List Handler
  panicked : Option String
deriving DecidableEq, Repr

/-- Embedding of the `match task_result` arm of `handle_create_dump`
(actor.rs:136-148): `Ok(Ok(())) => done()`,
`Ok(Err(e)) => with_error(e)`, `Err(_) => with_error("Unexpected ...")`. -/
def resolveInfo (i : DumpInfo) : TaskOutcome → DumpInfo
  | TaskOutcome.success => i.done
  | TaskOutcome.failure e => i.with_error e
  | TaskOutcome.panicked => i.with_error "Unexpected error while performing dump."

/-- Labels naming the atomic action a step performs. -/
inductive Act
  | tryLockFail
  | tryLockFailDead
  | tryLockOk
  | insertRec
  | replyOk
  | replyDead
  | taskResolve
  | finishOk
  | finishMissing
deriving DecidableEq, Repr

/-- Labelled small-step semantics of the actor.  Each constructor picks
one handler (the list is split as `pre ++ handler :: post`) and executes
its next atomic action from `handle_create_dump`; any interleaving of
the concurrent handlers is covered.  Every step requires
`panicked = none`: a panicked actor is stuck. -/
inductive Step : Sys → Act → Sys → Prop
  | tryLockFail (infos : List (String × DumpInfo)) (pre post : List Handler)
      (u : String) (o : TaskOutcome) :
      Step (Sys.mk true infos (pre ++ Handler.mk Pc.tryLock u true o none :: post) none)
        Act.tryLockFail
        (Sys.mk true infos
          (pre ++ Handler.mk Pc.rejected u true o
            (some (Except.error DumpError.dumpAlreadyRunning)) :: post) none)
  | tryLockFailDead (infos : List (String × DumpInfo)) (pre post : List Handler)
      (u : String) (o : TaskOutcome) :
      Step (Sys.mk true infos (pre ++ Handler.mk Pc.tryLock u false o none :: post) none)
        Act.tryLockFailDead
        (Sys.mk true infos (pre ++ Handler.mk Pc.tryLock u false o none :: post)
          (some "Dump actor is dead"))
  | tryLockOk (infos : List (String × DumpInfo)) (pre post : List Handler)
      (u : String) (al : Bool) (o : TaskOutcome) :
      Step (Sys.mk false infos (pre ++ Handler.mk Pc.tryLock u al o none :: post) none)
        Act.tryLockOk
        (Sys.mk true infos (pre ++ Handler.mk Pc.insert u al o none :: post) none)
  | insertRec (l : Bool) (infos : List (String × DumpInfo)) (pre post : List Handler)
      (u : String) (al : Bool) (o : TaskOutcome) :
      Step (Sys.mk l infos (pre ++ Handler.mk Pc.insert u al o none :: post) none)
        Act.insertRec
        (Sys.mk l (insertInfo infos u (DumpInfo.new u DumpStatus.inProgress))
          (pre ++ Handler.mk Pc.reply u al o none :: post) none)
  | replyOk (l : Bool) (infos : List (String × DumpInfo)) (pre post : List Handler)
      (u : String) (o : TaskOutcome) :
      Step (Sys.mk l infos (pre ++ Handler.mk Pc.reply u true o none :: post) none)
        Act.replyOk
        (Sys.mk l infos
          (pre ++ Handler.mk Pc.await u true o
            (some (Except.ok (DumpInfo.new u DumpStatus.inProgress))) :: post) none)
  | replyDead (l : Bool) (infos : List (String × DumpInfo)) (pre post : List Handler)
      (u : String) (o : TaskOutcome) :
      Step (Sys.mk l infos (pre ++ Handler.mk Pc.reply u false o none :: post) none)
        Act.replyDead
        (Sys.mk l infos (pre ++ Handler.mk Pc.reply u false o none :: post)
          (some "Dump actor is dead"))
  | taskResolve (l : Bool) (infos : List (String × DumpInfo)) (pre post : List Handler)
      (u : String) (al : Bool) (o : TaskOutcome) (r : Option (DumpResult DumpInfo)) :
      Step (Sys.mk l infos (pre ++ Handler.mk Pc.await u al o r :: post) none)
        Act.taskResolve
        (Sys.mk l infos (pre ++ Handler.mk Pc.finish u al o r :: post) none)
  | finishOk (l : Bool) (infos : List (String × DumpInfo)) (pre post : List Handler)
      (u : String) (al : Bool) (o : TaskOutcome) (r : Option (DumpResult DumpInfo))
      (i : DumpInfo) (hlook : lookupInfo infos u = some i) :
      Step (Sys.mk l infos (pre ++ Handler.mk Pc.finish u al o r :: post) none)
        Act.finishOk
        (Sys.mk false (updateInfo infos u (fun j => resolveInfo j o))
          (pre ++ Handler.mk Pc.doneOk u al o r :: post) none)
  | finishMissing (l : Bool) (infos : List (String × DumpInfo)) (pre post : List Handler)
      (u : String) (al : Bool) (o : TaskOutcome) (r : Option (DumpResult DumpInfo))
      (hlook : lookupInfo infos u = none) :
      Step (Sys.mk l infos (pre ++ Handler.mk Pc.finish u al o r :: post) none)
        Act.finishMissing
        (Sys.mk l infos (pre ++ Handler.mk Pc.finish u al o r :: post)
          (some "dump entry deleted while lock was acquired"))

/-- Some step with some label. -/
def StepAny (s s' : Sys) : Prop := ∃ a, Step s a s'

/-- Reachability through any number of steps. -/
def Reachable (s s' : Sys) : Prop := Relation.ReflTransGen StepAny s s'

/-- Initial condition of the actor: gate free, empty registry
(`HashMap::new`), no panic, every handler still at its start, and the
handler uids pairwise distinct (freshness of `generate_uid`, which the
gate makes effective per spec section 4.4). -/
def GoodInit (s : Sys) : Prop :=
  s.lock = false ∧ s.infos = [] ∧ s.panicked = none ∧
    (∀ h ∈ s.handlers, h.pc = Pc.tryLock ∧ h.replied = none) ∧
    (s.handlers.map Handler.uid).Nodup

/-! ## Registry lemmas -/

theorem lookup_insert_self (m : List (String × DumpInfo)) (k : String) (v : DumpInfo) :
    lookupInfo (insertInfo m k v) k = some v := by
  simp [insertInfo, lookupInfo]

theorem lookup_insert_other (m : List (String × DumpInfo)) (k u : String) (v : DumpInfo)
    (hne : u ≠ k) : lookupInfo (insertInfo m k v) u = lookupInfo m u := by
  unfold insertInfo
  rw [lookupInfo, if_neg (show ¬ (k, v).1 = u from fun he => hne he.symm)]

theorem updateInfo_cons (p : String × DumpInfo) (rest : List (String × DumpInfo))
    (k : String) (f : DumpInfo → DumpInfo) :
    updateInfo (p :: rest) k f =
      (if p.1 = k then (p.1, f p.2) else p) :: updateInfo rest k f := rfl

theorem lookup_update (m : List (String × DumpInfo)) (k u : String) (f : DumpInfo → DumpInfo) :
    lookupInfo (updateInfo m k f) u =
      if u = k then (lookupInfo m u).map f else lookupInfo m u := by
  induction m with
  | nil => simp [updateInfo, lookupInfo]
  | cons p rest ih =>
      rw [updateInfo_cons]
      by_cases hk : p.1 = k
      · rw [if_pos hk]
        by_cases hu : p.1 = u
        · have huk : u = k := by rw [← hu, hk]
          simp [lookupInfo, hu, huk, ih]
        · have huk : ¬ u = k := fun he => hu (by rw [hk, he])
          simp [lookupInfo, hu, huk, ih]
      · rw [if_neg hk]
        by_cases hu : p.1 = u
        · have huk : ¬ u = k := fun he => hk (by rw [hu, he])
          simp [lookupInfo, hu, huk, ih]
        · simp [lookupInfo, hu, ih]

theorem lookup_mem {m : List (String × DumpInfo)} {u : String} {v : DumpInfo}
    (h : lookupInfo m u = some v) : (u, v) ∈ m := by
  induction m with
  | nil => cases h
  | cons p rest ih =>
      by_cases hk : p.1 = u
      · rw [lookupInfo, if_pos hk] at h
        have hp : p = (u, v) := by
          obtain ⟨a, b⟩ := p
          cases h
          cases hk
          rfl
        exact hp ▸ List.mem_cons_self _ _
      · rw [lookupInfo, if_neg hk] at h
        exact List.mem_cons_of_mem _ (ih h)

theorem mem_updateInfo {m : List (String × DumpInfo)} {k : String} {f : DumpInfo → DumpInfo}
    {p : String × DumpInfo} (h : p ∈ updateInfo m k f) :
    ∃ q ∈ m, p = if q.1 = k then (q.1, f q.2) else q := by
  unfold updateInfo at h
  obtain ⟨q, hq, he⟩ := List.mem_map.mp h
  exact ⟨q, hq, he.symm⟩

theorem not_mem_keys_of_lookup_none {m : List (String × DumpInfo)} {u : String}
    (h : lookupInfo m u = none) : u ∉ m.map Prod.fst := by
  induction m with
  | nil => simp
  | cons p rest ih =>
      rw [lookupInfo] at h
      by_cases hk : p.1 = u
      · rw [if_pos hk] at h; cases h
      · rw [if_neg hk] at h
        simp only [List.map_cons, List.mem_cons]
        push_neg
        exact ⟨fun he => hk he.symm, ih h⟩

theorem keys_insertInfo {m : List (String × DumpInfo)} (hnd : (m.map Prod.fst).Nodup)
    {k : String} (v : DumpInfo) (hnone : lookupInfo m k = none) :
    ((insertInfo m k v).map Prod.fst).Nodup := by
  unfold insertInfo
  simp only [List.map_cons, List.nodup_cons]
  exact ⟨not_mem_keys_of_lookup_none hnone, hnd⟩

theorem keys_updateInfo (m : List (String × DumpInfo)) (k : String) (f : DumpInfo → DumpInfo) :
    (updateInfo m k f).map Prod.fst = m.map Prod.fst := by
  unfold updateInfo
  rw [List.map_map]
  refine List.map_congr_left ?_
  intro p _
  by_cases h : p.1 = k <;> simp [h]

/-! ## List helpers for the handler pool -/

theorem mem_mid_cases {α : Type} {h x : α} {pre post : List α}
    (hm : h ∈ pre ++ x :: post) : h = x ∨ h ∈ pre ++ post := by
  rcases List.mem_append.mp hm with hp | hp
  · exact Or.inr (List.mem_append.mpr (Or.inl hp))
  · rcases List.mem_cons.mp hp with rfl | hp
    · exact Or.inl rfl
    · exact Or.inr (List.mem_append.mpr (Or.inr hp))

theorem mem_mid_intro {α : Type} {h : α} (x : α) {pre post : List α}
    (hm : h ∈ pre ++ post) : h ∈ pre ++ x :: post := by
  rcases List.mem_append.mp hm with hp | hp
  · exact List.mem_append.mpr (Or.inl hp)
  · exact List.mem_append.mpr (Or.inr (List.mem_cons.mpr (Or.inr hp)))

theorem mem_mid_self {α : Type} (x : α) (pre post : List α) : x ∈ pre ++ x :: post :=
  List.mem_append.mpr (Or.inr (List.mem_cons_self _ _))

theorem countP_mid {α : Type} (p : α → Bool) (pre post : List α) (x : α) :
    (pre ++ x :: post).countP p =
      pre.countP p + post.countP p + (if p x then 1 else 0) := by
  by_cases hx : p x
  · simp [List.countP_append, List.countP_cons, hx]
    omega
  · simp [List.countP_append, List.countP_cons, hx]

theorem countP_eq_one_unique {α : Type} {p : α → Bool} {l : List α} (h : l.countP p = 1)
    {a b : α} (ha : a ∈ l) (hpa : p a = true) (hb : b ∈ l) (hpb : p b = true) : a = b := by
  induction l with
  | nil => cases ha
  | cons x xs ih =>
      by_cases hx : p x = true
      · have hxs : xs.countP p = 0 := by
          rw [List.countP_cons_of_pos _ _ hx] at h
          omega
        have hnone := List.countP_eq_zero.mp hxs
        rcases List.mem_cons.mp ha with rfl | ha'
        · rcases List.mem_cons.mp hb with rfl | hb'
          · rfl
          · exact absurd hpb (hnone _ hb')
        · exact absurd hpa (hnone _ ha')
      · rcases List.mem_cons.mp ha with rfl | ha'
        · exact absurd hpa hx
        rcases List.mem_cons.mp hb with rfl | hb'
        · exact absurd hpb hx
        refine ih ?_ ha' hb'
        rwa [List.countP_cons_of_neg _ _ hx] at h

theorem countP_le_one_of_key {l : List (String × DumpInfo)} {p : String × DumpInfo → Bool}
    (hnd : (l.map Prod.fst).Nodup)
    (hkey : ∀ x ∈ l, p x = true → ∀ y ∈ l, p y = true → x.1 = y.1) :
    l.countP p ≤ 1 := by
  induction l with
  | nil => simp
  | cons x xs ih =>
      simp only [List.map_cons, List.nodup_cons] at hnd
      by_cases hx : p x = true
      · have hzero : xs.countP p = 0 := by
          rw [List.countP_eq_zero]
          intro y hy hpy
          have hxy : x.1 = y.1 :=
            hkey x (List.mem_cons_self _ _) hx y (List.mem_cons_of_mem _ hy) hpy
          exact hnd.1 (hxy ▸ List.mem_map_of_mem Prod.fst hy)
        rw [List.countP_cons_of_pos _ _ hx, hzero]
      · rw [List.countP_cons_of_neg _ _ hx]
        exact ih hnd.2 fun a ha hpa b hb hpb =>
          hkey a (List.mem_cons_of_mem _ ha) hpa b (List.mem_cons_of_mem _ hb) hpb

/-! ## The inductive invariant -/

/-- Program counters inside the critical section, i.e. positions where
the handler holds the Exclusion Gate. -/
def Pc.inCS : Pc → Bool
  | Pc.insert | Pc.reply | Pc.await | Pc.finish => true
  | _ => false

/-- Critical-section positions after the registry insert. -/
def Pc.activeRec : Pc → Bool
  | Pc.reply | Pc.await | Pc.finish => true
  | _ => false

/-- Positions at which the handler has inserted its record (the accept
phase happened), including the completed flow. -/
def Pc.postInsert : Pc → Bool
  | Pc.reply | Pc.await | Pc.finish | Pc.doneOk => true
  | _ => false

/-- Positions before the handler's registry insert. -/
def Pc.preInsert : Pc → Bool
  | Pc.tryLock | Pc.insert => true
  | _ => false

/-- Number of handlers currently inside the critical section. -/
def csCount (l : List Handler) : Nat := l.countP (fun h => h.pc.inCS)

/-- The inductive invariant of the actor, preserved by every step from
a `GoodInit` state. -/
structure ActorInv (s : Sys) : Prop where
  lockCount : csCount s.handlers = (if s.lock then 1 else 0)
  keysNodup : (s.infos.map Prod.fst).Nodup
  uidsNodup : (s.handlers.map Handler.uid).Nodup
  activeLook : ∀ h ∈ s.handlers, h.pc.activeRec = true →
    lookupInfo s.infos h.uid = some (DumpInfo.new h.uid DumpStatus.inProgress)
  doneLook : ∀ h ∈ s.handlers, h.pc = Pc.doneOk → lookupInfo s.infos h.uid ≠ none
  fresh : ∀ h ∈ s.handlers, h.pc.preInsert = true → lookupInfo s.infos h.uid = none
  inprog : ∀ kv ∈ s.infos, kv.2.status = DumpStatus.inProgress →
    ∃ h ∈ s.handlers, h.pc.activeRec = true ∧ h.uid = kv.1
  keyUid : ∀ kv ∈ s.infos, kv.2.uid = kv.1
  repliedOk : ∀ h ∈ s.handlers, ∀ info, h.replied = some (Except.ok info) →
    info = DumpInfo.new h.uid DumpStatus.inProgress ∧ h.pc.postInsert = true

theorem uid_ne_of_sides {pre post : List Handler} {x : Handler}
    (hnd : ((pre ++ x :: post).map Handler.uid).Nodup) :
    ∀ h ∈ pre ++ post, h.uid ≠ x.uid := by
  intro h hm
  simp only [List.map_append, List.map_cons, List.nodup_append, List.nodup_cons] at hnd
  rcases List.mem_append.mp hm with hp | hp
  · intro he
    exact hnd.2.2 (List.mem_map_of_mem Handler.uid hp)
      (by rw [he]; exact List.mem_cons_self _ _)
  · intro he
    exact hnd.2.1.1 (he ▸ List.mem_map_of_mem Handler.uid hp)

theorem resolveInfo_status (i : DumpInfo) (o : TaskOutcome) :
    (resolveInfo i o).status ≠ DumpStatus.inProgress := by
  cases o <;> simp [resolveInfo, DumpInfo.done, DumpInfo.with_error]

theorem resolveInfo_uid (i : DumpInfo) (o : TaskOutcome) :
    (resolveInfo i o).uid = i.uid := by
  cases o <;> simp [resolveInfo, DumpInfo.done, DumpInfo.with_error]

theorem activeRec_inCS {p : Pc} (h : p.activeRec = true) : p.inCS = true := by
  cases p <;> simp_all [Pc.activeRec, Pc.inCS]

theorem csCount_mid (pre post : List Handler) (x : Handler) :
    csCount (pre ++ x :: post) =
      csCount pre + csCount post + (if x.pc.inCS then 1 else 0) := by
  unfold csCount
  rw [countP_mid]

theorem csCount_zero_no_mem {l : List Handler} (h : csCount l = 0) :
    ∀ x ∈ l, x.pc.inCS = false := by
  intro x hm
  exact Bool.eq_false_iff.mpr (List.countP_eq_zero.mp h x hm)

theorem lock_true_of_mid_cs {l : Bool} {pre post : List Handler} {x : Handler}
    (hx : x.pc.inCS = true)
    (hcount : csCount (pre ++ x :: post) = if l then 1 else 0) :
    l = true ∧ csCount pre = 0 ∧ csCount post = 0 := by
  rw [csCount_mid, if_pos hx] at hcount
  cases l with
  | false =>
      exfalso
      rw [if_neg (by simp)] at hcount
      omega
  | true =>
      rw [if_pos rfl] at hcount
      refine ⟨rfl, ?_, ?_⟩ <;> omega

theorem cs_none_of_counts {pre post : List Handler}
    (hpre : csCount pre = 0) (hpost : csCount post = 0) :
    ∀ h ∈ pre ++ post, h.pc.inCS = false := by
  intro h hm
  rcases List.mem_append.mp hm with hp | hp
  · exact csCount_zero_no_mem hpre h hp
  · exact csCount_zero_no_mem hpost h hp

theorem inv_step {s s' : Sys} {a : Act} (hinv : ActorInv s) (hs : Step s a s') :
    ActorInv s' := by
  cases hs with
  | tryLockFailDead infos pre post u o =>
      exact ⟨hinv.lockCount, hinv.keysNodup, hinv.uidsNodup, hinv.activeLook,
        hinv.doneLook, hinv.fresh, hinv.inprog, hinv.keyUid, hinv.repliedOk⟩
  | replyDead l infos pre post u o =>
      exact ⟨hinv.lockCount, hinv.keysNodup, hinv.uidsNodup, hinv.activeLook,
        hinv.doneLook, hinv.fresh, hinv.inprog, hinv.keyUid, hinv.repliedOk⟩
  | finishMissing l infos pre post u al o r hlook =>
      exact ⟨hinv.lockCount, hinv.keysNodup, hinv.uidsNodup, hinv.activeLook,
        hinv.doneLook, hinv.fresh, hinv.inprog, hinv.keyUid, hinv.repliedOk⟩
  | tryLockFail infos pre post u o =>
      obtain ⟨hc, hkn, hun, hal, hdl, hfr, hip, hku, hro⟩ := hinv
      dsimp only at hc hkn hun hal hdl hfr hip hku hro
      refine ⟨?_, hkn, ?_, ?_, ?_, ?_, ?_, hku, ?_⟩ <;> dsimp only
      · rw [csCount_mid] at hc ⊢
        simpa [Pc.inCS] using hc
      · simpa [List.map_append] using hun
      · intro h hm hact
        rcases mem_mid_cases hm with rfl | hm'
        · simp [Pc.activeRec] at hact
        · exact hal h (mem_mid_intro _ hm') hact
      · intro h hm hpc
        rcases mem_mid_cases hm with rfl | hm'
        · simp at hpc
        · exact hdl h (mem_mid_intro _ hm') hpc
      · intro h hm hpc
        rcases mem_mid_cases hm with rfl | hm'
        · simp [Pc.preInsert] at hpc
        · exact hfr h (mem_mid_intro _ hm') hpc
      · intro kv hkv hst
        obtain ⟨h, hm, hact, huid⟩ := hip kv hkv hst
        rcases mem_mid_cases hm with rfl | hm'
        · simp [Pc.activeRec] at hact
        · exact ⟨h, mem_mid_intro _ hm', hact, huid⟩
      · intro h hm info hrep
        rcases mem_mid_cases hm with rfl | hm'
        · simp at hrep
        · exact hro h (mem_mid_intro _ hm') info hrep
  | tryLockOk infos pre post u al o =>
      obtain ⟨hc, hkn, hun, hal, hdl, hfr, hip, hku, hro⟩ := hinv
      dsimp only at hc hkn hun hal hdl hfr hip hku hro
      have hc' : csCount pre = 0 ∧ csCount post = 0 := by
        rw [csCount_mid] at hc
        simp [Pc.inCS] at hc
        constructor <;> omega
      have hzero : ∀ h ∈ pre ++ post, h.pc.inCS = false :=
        cs_none_of_counts hc'.1 hc'.2
      refine ⟨?_, hkn, ?_, ?_, ?_, ?_, ?_, hku, ?_⟩ <;> dsimp only
      · rw [csCount_mid]
        simp [Pc.inCS, hc'.1, hc'.2]
      · simpa [List.map_append] using hun
      · intro h hm hact
        rcases mem_mid_cases hm with rfl | hm'
        · simp [Pc.activeRec] at hact
        · exact absurd (activeRec_inCS hact) (by simp [hzero h hm'])
      · intro h hm hpc
        rcases mem_mid_cases hm with rfl | hm'
        · simp at hpc
        · exact hdl h (mem_mid_intro _ hm') hpc
      · intro h hm hpc
        rcases mem_mid_cases hm with rfl | hm'
        · exact hfr (Handler.mk Pc.tryLock u al o none) (mem_mid_self _ _ _)
            (by simp [Pc.preInsert])
        · exact hfr h (mem_mid_intro _ hm') hpc
      · intro kv hkv hst
        obtain ⟨h, hm, hact, huid⟩ := hip kv hkv hst
        rcases mem_mid_cases hm with rfl | hm'
        · simp [Pc.activeRec] at hact
        · exact ⟨h, mem_mid_intro _ hm', hact, huid⟩
      · intro h hm info hrep
        rcases mem_mid_cases hm with rfl | hm'
        · simp at hrep
        · exact hro h (mem_mid_intro _ hm') info hrep
  | insertRec l infos pre post u al o =>
      obtain ⟨hc, hkn, hun, hal, hdl, hfr, hip, hku, hro⟩ := hinv
      dsimp only at hc hkn hun hal hdl hfr hip hku hro
      obtain ⟨hl, hpre0, hpost0⟩ :=
        lock_true_of_mid_cs (x := Handler.mk Pc.insert u al o none) rfl hc
      have hsides := cs_none_of_counts hpre0 hpost0
      have hfresh_u : lookupInfo infos u = none :=
        hfr (Handler.mk Pc.insert u al o none) (mem_mid_self _ _ _)
          (by simp [Pc.preInsert])
      have hne_side : ∀ h ∈ pre ++ post, h.uid ≠ u :=
        fun h hm => uid_ne_of_sides hun h hm
      refine ⟨?_, ?_, ?_, ?_, ?_, ?_, ?_, ?_, ?_⟩ <;> dsimp only
      · rw [csCount_mid] at hc ⊢
        simpa [Pc.inCS] using hc
      · exact keys_insertInfo hkn _ hfresh_u
      · simpa [List.map_append] using hun
      · intro h hm hact
        rcases mem_mid_cases hm with rfl | hm'
        · exact lookup_insert_self _ _ _
        · exact absurd (activeRec_inCS hact) (by simp [hsides h hm'])
      · intro h hm hpc
        rcases mem_mid_cases hm with rfl | hm'
        · simp at hpc
        · by_cases hequ : h.uid = u
          · rw [hequ, lookup_insert_self]
            simp
          · rw [lookup_insert_other _ _ _ _ hequ]
            exact hdl h (mem_mid_intro _ hm') hpc
      · intro h hm hpc
        rcases mem_mid_cases hm with rfl | hm'
        · simp [Pc.preInsert] at hpc
        · rw [lookup_insert_other _ _ _ _ (hne_side h hm')]
          exact hfr h (mem_mid_intro _ hm') hpc
      · intro kv hkv hst
        simp only [insertInfo] at hkv
        rcases List.mem_cons.mp hkv with rfl | hkv'
        · exact ⟨Handler.mk Pc.reply u al o none, mem_mid_self _ _ _, rfl, rfl⟩
        · obtain ⟨h, hm, hact, huid⟩ := hip kv hkv' hst
          rcases mem_mid_cases hm with rfl | hm'
          · simp [Pc.activeRec] at hact
          · exact absurd (activeRec_inCS hact) (by simp [hsides h hm'])
      · intro kv hkv
        simp only [insertInfo] at hkv
        rcases List.mem_cons.mp hkv with rfl | hkv'
        · rfl
        · exact hku kv hkv'
      · intro h hm info hrep
        rcases mem_mid_cases hm with rfl | hm'
        · simp at hrep
        · exact hro h (mem_mid_intro _ hm') info hrep
  | replyOk l infos pre post u o =>
      obtain ⟨hc, hkn, hun, hal, hdl, hfr, hip, hku, hro⟩ := hinv
      dsimp only at hc hkn hun hal hdl hfr hip hku hro
      refine ⟨?_, hkn, ?_, ?_, ?_, ?_, ?_, hku, ?_⟩ <;> dsimp only
      · rw [csCount_mid] at hc ⊢
        simpa [Pc.inCS] using hc
      · simpa [List.map_append] using hun
      · intro h hm hact
        rcases mem_mid_cases hm with rfl | hm'
        · exact hal (Handler.mk Pc.reply u true o none) (mem_mid_self _ _ _)
            (by simp [Pc.activeRec])
        · exact hal h (mem_mid_intro _ hm') hact
      · intro h hm hpc
        rcases mem_mid_cases hm with rfl | hm'
        · simp at hpc
        · exact hdl h (mem_mid_intro _ hm') hpc
      · intro h hm hpc
        rcases mem_mid_cases hm with rfl | hm'
        · simp [Pc.preInsert] at hpc
        · exact hfr h (mem_mid_intro _ hm') hpc
      · intro kv hkv hst
        obtain ⟨h, hm, hact, huid⟩ := hip kv hkv hst
        rcases mem_mid_cases hm with rfl | hm'
        · exact ⟨Handler.mk Pc.await u true o
            (some (Except.ok (DumpInfo.new u DumpStatus.inProgress))),
            mem_mid_self _ _ _, rfl, huid⟩
        · exact ⟨h, mem_mid_intro _ hm', hact, huid⟩
      · intro h hm info hrep
        rcases mem_mid_cases hm with rfl | hm'
        · simp only [Option.some.injEq, Except.ok.injEq] at hrep
          exact ⟨hrep.symm, rfl⟩
        · exact hro h (mem_mid_intro _ hm') info hrep
  | taskResolve l infos pre post u al o r =>
      obtain ⟨hc, hkn, hun, hal, hdl, hfr, hip, hku, hro⟩ := hinv
      dsimp only at hc hkn hun hal hdl hfr hip hku hro
      refine ⟨?_, hkn, ?_, ?_, ?_, ?_, ?_, hku, ?_⟩ <;> dsimp only
      · rw [csCount_mid] at hc ⊢
        simpa [Pc.inCS] using hc
      · simpa [List.map_append] using hun
      · intro h hm hact
        rcases mem_mid_cases hm with rfl | hm'
        · exact hal (Handler.mk Pc.await u al o r) (mem_mid_self _ _ _)
            (by simp [Pc.activeRec])
        · exact hal h (mem_mid_intro _ hm') hact
      · intro h hm hpc
        rcases mem_mid_cases hm with rfl | hm'
        · simp at hpc
        · exact hdl h (mem_mid_intro _ hm') hpc
      · intro h hm hpc
        rcases mem_mid_cases hm with rfl | hm'
        · simp [Pc.preInsert] at hpc
        · exact hfr h (mem_mid_intro _ hm') hpc
      · intro kv hkv hst
        obtain ⟨h, hm, hact, huid⟩ := hip kv hkv hst
        rcases mem_mid_cases hm with rfl | hm'
        · exact ⟨Handler.mk Pc.finish u al o r, mem_mid_self _ _ _, rfl, huid⟩
        · exact ⟨h, mem_mid_intro _ hm', hact, huid⟩
      · intro h hm info hrep
        rcases mem_mid_cases hm with rfl | hm'
        · exact ⟨(hro (Handler.mk Pc.await u al o r) (mem_mid_self _ _ _) info hrep).1, rfl⟩
        · exact hro h (mem_mid_intro _ hm') info hrep
  | finishOk l infos pre post u al o r i hlook =>
      obtain ⟨hc, hkn, hun, hal, hdl, hfr, hip, hku, hro⟩ := hinv
      dsimp only at hc hkn hun hal hdl hfr hip hku hro
      obtain ⟨hl, hpre0, hpost0⟩ :=
        lock_true_of_mid_cs (x := Handler.mk Pc.finish u al o r) rfl hc
      have hsides := cs_none_of_counts hpre0 hpost0
      have hne_side : ∀ h ∈ pre ++ post, h.uid ≠ u :=
        fun h hm => uid_ne_of_sides hun h hm
      have hmid_look : lookupInfo infos u = some (DumpInfo.new u DumpStatus.inProgress) :=
        hal (Handler.mk Pc.finish u al o r) (mem_mid_self _ _ _)
          (by simp [Pc.activeRec])
      refine ⟨?_, ?_, ?_, ?_, ?_, ?_, ?_, ?_, ?_⟩ <;> dsimp only
      · rw [csCount_mid]
        simp [Pc.inCS, hpre0, hpost0]
      · rw [keys_updateInfo]
        exact hkn
      · simpa [List.map_append] using hun
      · intro h hm hact
        rcases mem_mid_cases hm with rfl | hm'
        · simp [Pc.activeRec] at hact
        · exact absurd (activeRec_inCS hact) (by simp [hsides h hm'])
      · intro h hm hpc
        rcases mem_mid_cases hm with rfl | hm'
        · rw [lookup_update]
          simp [hmid_look]
        · by_cases hequ : h.uid = u
          · rw [lookup_update, if_pos hequ]
            simp [hequ, hmid_look]
          · rw [lookup_update, if_neg hequ]
            exact hdl h (mem_mid_intro _ hm') hpc
      · intro h hm hpc
        rcases mem_mid_cases hm with rfl | hm'
        · simp [Pc.preInsert] at hpc
        · rw [lookup_update, if_neg (hne_side h hm')]
          exact hfr h (mem_mid_intro _ hm') hpc
      · intro kv hkv hst
        exfalso
        obtain ⟨q, hq, hqe⟩ := mem_updateInfo hkv
        by_cases hqk : q.1 = u
        · rw [if_pos hqk] at hqe
          rw [hqe] at hst
          exact resolveInfo_status q.2 o hst
        · rw [if_neg hqk] at hqe
          subst hqe
          obtain ⟨h, hm, hact, huid⟩ := hip kv hq hst
          rcases mem_mid_cases hm with rfl | hm'
          · exact hqk huid.symm
          · exact absurd (activeRec_inCS hact) (by simp [hsides h hm'])
      · intro kv hkv
        obtain ⟨q, hq, hqe⟩ := mem_updateInfo hkv
        by_cases hqk : q.1 = u
        · rw [if_pos hqk] at hqe
          rw [hqe]
          dsimp only
          rw [resolveInfo_uid]
          exact hku q hq
        · rw [if_neg hqk] at hqe
          rw [hqe]
          exact hku q hq
      · intro h hm info hrep
        rcases mem_mid_cases hm with rfl | hm'
        · exact ⟨(hro (Handler.mk Pc.finish u al o r) (mem_mid_self _ _ _) info hrep).1, rfl⟩
        · exact hro h (mem_mid_intro _ hm') info hrep

theorem inv_of_goodInit {s : Sys} (hg : GoodInit s) : ActorInv s := by
  obtain ⟨hl, hi, hp, hh, hu⟩ := hg
  refine ⟨?_, ?_, hu, ?_, ?_, ?_, ?_, ?_, ?_⟩
  · rw [hl]
    unfold csCount
    rw [List.countP_eq_zero.mpr ?_]
    · simp
    · intro h hm
      have hpc := (hh h hm).1
      simp [hpc, Pc.inCS]
  · rw [hi]
    simp
  · intro h hm hact
    have hpc := (hh h hm).1
    rw [hpc] at hact
    simp [Pc.activeRec] at hact
  · intro h hm hpc
    have hpc' := (hh h hm).1
    rw [hpc'] at hpc
    simp at hpc
  · intro h hm _
    rw [hi]
    rfl
  · intro kv hkv
    rw [hi] at hkv
    exact absurd hkv (List.not_mem_nil kv)
  · intro kv hkv
    rw [hi] at hkv
    exact absurd hkv (List.not_mem_nil kv)
  · intro h hm info hrep
    have hr := (hh h hm).2
    rw [hr] at hrep
    simp at hrep

theorem inv_reachable {init s : Sys} (hg : GoodInit init) (hr : Reachable init s) :
    ActorInv s := by
  induction hr with
  | refl => exact inv_of_goodInit hg
  | tail _ hstep ih =>
      obtain ⟨a, ha⟩ := hstep
      exact inv_step ih ha

theorem panicked_not_fatal {init s : Sys} (hg : GoodInit init) (hr : Reachable init s) :
    s.panicked ≠ some "dump entry deleted while lock was acquired" := by
  induction hr with
  | refl =>
      rw [hg.2.2.1]
      simp
  | tail hr' hstep ih =>
      obtain ⟨a, ha⟩ := hstep
      have hinv := inv_reachable hg hr'
      cases ha with
      | finishMissing l infos pre post u al o r hlook =>
          exfalso
          have hlk := hinv.activeLook (Handler.mk Pc.finish u al o r)
            (mem_mid_self _ _ _) (by simp [Pc.activeRec])
          rw [hlook] at hlk
          simp at hlk
      | tryLockFailDead infos pre post u o => simp
      | replyDead l infos pre post u o => simp
      | tryLockFail infos pre post u o => simp
      | tryLockOk infos pre post u al o => simp
      | insertRec l infos pre post u al o => simp
      | replyOk l infos pre post u o => simp
      | taskResolve l infos pre post u al o r => simp
      | finishOk l infos pre post u al o r i hlook => simp

theorem resolveInfo_status_cases (i : DumpInfo) (o : TaskOutcome) :
    (resolveInfo i o).status = DumpStatus.done ∨
      (resolveInfo i o).status = DumpStatus.failed := by
  cases o <;> simp [resolveInfo, DumpInfo.done, DumpInfo.with_error]

/-! ## Concrete executions used as witnesses -/

/-- A sample identifier (`generate_uid` output shape). -/
def uid0 : String := "20210615-120000123"

theorem goodInit_single (uidv : String) (al : Bool) (o : TaskOutcome) :
    GoodInit (Sys.mk false [] [Handler.mk Pc.tryLock uidv al o none] none) := by
  refine ⟨rfl, rfl, rfl, ?_, ?_⟩
  · intro h hm
    rw [List.mem_singleton] at hm
    subst hm
    exact ⟨rfl, rfl⟩
  · simp

/-- Successful create-dump run, step by step: the single handler
acquires the gate, inserts, replies, awaits the task, sees it resolve. -/
def trace0 : Sys :=
  Sys.mk false [] [Handler.mk Pc.tryLock uid0 true TaskOutcome.success none] none

def trace1 : Sys :=
  Sys.mk true [] [Handler.mk Pc.insert uid0 true TaskOutcome.success none] none

def trace2 : Sys :=
  Sys.mk true (insertInfo [] uid0 (DumpInfo.new uid0 DumpStatus.inProgress))
    [Handler.mk Pc.reply uid0 true TaskOutcome.success none] none

def trace3 : Sys :=
  Sys.mk true (insertInfo [] uid0 (DumpInfo.new uid0 DumpStatus.inProgress))
    [Handler.mk Pc.await uid0 true TaskOutcome.success
      (some (Except.ok (DumpInfo.new uid0 DumpStatus.inProgress)))] none

def trace4 : Sys :=
  Sys.mk true (insertInfo [] uid0 (DumpInfo.new uid0 DumpStatus.inProgress))
    [Handler.mk Pc.finish uid0 true TaskOutcome.success
      (some (Except.ok (DumpInfo.new uid0 DumpStatus.inProgress)))] none

theorem trace0_good : GoodInit trace0 := goodInit_single uid0 true TaskOutcome.success

theorem trace_step01 : Step trace0 Act.tryLockOk trace1 :=
  Step.tryLockOk [] [] [] uid0 true TaskOutcome.success

theorem trace_step12 : Step trace1 Act.insertRec trace2 :=
  Step.insertRec true [] [] [] uid0 true TaskOutcome.success

theorem trace_step23 : Step trace2 Act.replyOk trace3 :=
  Step.replyOk true (insertInfo [] uid0 (DumpInfo.new uid0 DumpStatus.inProgress))
    [] [] uid0 TaskOutcome.success

theorem trace_step34 : Step trace3 Act.taskResolve trace4 :=
  Step.taskResolve true (insertInfo [] uid0 (DumpInfo.new uid0 DumpStatus.inProgress))
    [] [] uid0 true TaskOutcome.success
    (some (Except.ok (DumpInfo.new uid0 DumpStatus.inProgress)))

theorem reach_trace1 : Reachable trace0 trace1 :=
  Relation.ReflTransGen.single ⟨Act.tryLockOk, trace_step01⟩

theorem reach_trace2 : Reachable trace0 trace2 :=
  reach_trace1.tail ⟨Act.insertRec, trace_step12⟩

theorem reach_trace3 : Reachable trace0 trace3 :=
  reach_trace2.tail ⟨Act.replyOk, trace_step23⟩

theorem reach_trace4 : Reachable trace0 trace4 :=
  reach_trace3.tail ⟨Act.taskResolve, trace_step34⟩

/-- Create-dump run whose caller dropped the oneshot receiver before
the acceptance reply (`replyAlive = false`). -/
def dead0 : Sys :=
  Sys.mk false [] [Handler.mk Pc.tryLock uid0 false TaskOutcome.success none] none

def dead1 : Sys :=
  Sys.mk true [] [Handler.mk Pc.insert uid0 false TaskOutcome.success none] none

def dead2 : Sys :=
  Sys.mk true (insertInfo [] uid0 (DumpInfo.new uid0 DumpStatus.inProgress))
    [Handler.mk Pc.reply uid0 false TaskOutcome.success none] none

def dead3 : Sys :=
  Sys.mk true (insertInfo [] uid0 (DumpInfo.new uid0 DumpStatus.inProgress))
    [Handler.mk Pc.reply uid0 false TaskOutcome.success none]
    (some "Dump actor is dead")

theorem dead0_good : GoodInit dead0 := goodInit_single uid0 false TaskOutcome.success

theorem dead_step01 : Step dead0 Act.tryLockOk dead1 :=
  Step.tryLockOk [] [] [] uid0 false TaskOutcome.success

theorem dead_step12 : Step dead1 Act.insertRec dead2 :=
  Step.insertRec true [] [] [] uid0 false TaskOutcome.success

theorem dead_step23 : Step dead2 Act.replyDead dead3 :=
  Step.replyDead true (insertInfo [] uid0 (DumpInfo.new uid0 DumpStatus.inProgress))
    [] [] uid0 TaskOutcome.success

theorem reach_dead3 : Reachable dead0 dead3 :=
  ((Relation.ReflTransGen.single ⟨Act.tryLockOk, dead_step01⟩).tail
    ⟨Act.insertRec, dead_step12⟩).tail ⟨Act.replyDead, dead_step23⟩

/-- Create-dump run whose spawned task panics
(`outcome = TaskOutcome.panicked`). -/
def pan0 : Sys :=
  Sys.mk false [] [Handler.mk Pc.tryLock uid0 true TaskOutcome.panicked none] none

def pan4 : Sys :=
  Sys.mk true (insertInfo [] uid0 (DumpInfo.new uid0 DumpStatus.inProgress))
    [Handler.mk Pc.finish uid0 true TaskOutcome.panicked
      (some (Except.ok (DumpInfo.new uid0 DumpStatus.inProgress)))] none

theorem pan0_good : GoodInit pan0 := goodInit_single uid0 true TaskOutcome.panicked

theorem reach_pan4 : Reachable pan0 pan4 :=
  ((((Relation.ReflTransGen.single
    ⟨Act.tryLockOk, Step.tryLockOk [] [] [] uid0 true TaskOutcome.panicked⟩).tail
    ⟨Act.insertRec, Step.insertRec true [] [] [] uid0 true TaskOutcome.panicked⟩).tail
    ⟨Act.replyOk, Step.replyOk true
      (insertInfo [] uid0 (DumpInfo.new uid0 DumpStatus.inProgress))
      [] [] uid0 TaskOutcome.panicked⟩).tail
    ⟨Act.taskResolve, Step.taskResolve true
      (insertInfo [] uid0 (DumpInfo.new uid0 DumpStatus.inProgress))
      [] [] uid0 true TaskOutcome.panicked
      (some (Except.ok (DumpInfo.new uid0 DumpStatus.inProgress)))⟩)

/-- States for a rejected second create-dump attempt while the gate is
held. -/
def rejS : Sys :=
  Sys.mk true [] [Handler.mk Pc.tryLock uid0 true TaskOutcome.success none] none

def rejS' : Sys :=
  Sys.mk true []
    [Handler.mk Pc.rejected uid0 true TaskOutcome.success
      (some (Except.error DumpError.dumpAlreadyRunning))] none

theorem rej_step : Step rejS Act.tryLockFail rejS' :=
  Step.tryLockFail [] [] [] uid0 TaskOutcome.success

/-! ## Claim theorems -/

/-- C1 (counterexample): the claim "the Exclusion Gate hold ends when
the synchronous accept phase ends, before the dump task is awaited" is
false on the code: in the concrete run `trace0 → trace3`, the handler
has already inserted and replied and now sits inside the inline
`tokio::task::spawn(task.run()).await` (`pc = await`), yet the gate is
still held (`lock = true`), because the `_lock` guard lives to the end
of the function body. -/
theorem gate_not_released_before_await_cex :
    Reachable trace0 trace3 ∧
      (∃ h ∈ trace3.handlers, h.pc = Pc.await) ∧ trace3.lock = true := by
  refine ⟨reach_trace3, ⟨Handler.mk Pc.await uid0 true TaskOutcome.success
    (some (Except.ok (DumpInfo.new uid0 DumpStatus.inProgress))),
    List.mem_cons_self _ _, rfl⟩, rfl⟩

/-- C1 (amended): the Exclusion Gate is held past the reply, for the
full duration of the dump task: the await happens inline in
`handle_create_dump`, so in every reachable state a handler anywhere in
the critical section — including `await` (task in flight) and `finish`
— implies the gate is held. -/
theorem gate_held_while_task_runs {init s : Sys} (hg : GoodInit init)
    (hr : Reachable init s) :
    ∀ h ∈ s.handlers, h.pc.inCS = true → s.lock = true := by
  have hinv := inv_reachable hg hr
  intro h hm hcs
  cases hsl : s.lock with
  | false =>
      exfalso
      have hc := hinv.lockCount
      rw [hsl, if_neg (by simp)] at hc
      exact absurd hcs (by simp [csCount_zero_no_mem hc h hm])
  | true => rfl

/-- Witness for C1 (amended) at the concrete run: at `trace3` the
handler is at `await` and the gate is indeed held. -/
theorem gate_held_while_task_runs_witness : trace3.lock = true :=
  gate_held_while_task_runs trace0_good reach_trace3
    (Handler.mk Pc.await uid0 true TaskOutcome.success
      (some (Except.ok (DumpInfo.new uid0 DumpStatus.inProgress))))
    (List.mem_cons_self _ _) rfl

/-- C2 (counterexample): the claim "for every request whose caller
abandoned its reply slot the actor does not fail" is false for
CreateDump: in the concrete run `dead0 → dead3`, the accepted handler
reaches `ret.send(Ok(info)).expect("Dump actor is dead")` with the
receiver dropped and the actor panics. -/
theorem dead_caller_panics_actor_cex :
    GoodInit dead0 ∧ Reachable dead0 dead3 ∧
      dead3.panicked = some "Dump actor is dead" :=
  ⟨dead0_good, reach_dead3, rfl⟩

/-- C2 (amended): only the QueryStatus reply (`let _ = ret.send(..)`,
actor.rs:95) drops a failed send silently; the two CreateDump replies
(`.expect("Dump actor is dead")`, actor.rs:109 and 118) panic the
handler when the caller has vanished. -/
theorem reply_drop_behavior :
    (∀ (infos : List (String × DumpInfo)) (uid : String) (alive : Bool),
      handleDumpInfoMsg infos uid alive = none) ∧
    (∀ s s' : Sys, Step s Act.replyDead s' →
      s'.panicked = some "Dump actor is dead") ∧
    (∀ s s' : Sys, Step s Act.tryLockFailDead s' →
      s'.panicked = some "Dump actor is dead") := by
  refine ⟨fun _ _ _ => rfl, ?_, ?_⟩
  · intro s s' hs
    cases hs with
    | replyDead l infos pre post u o => rfl
  · intro s s' hs
    cases hs with
    | tryLockFailDead infos pre post u o => rfl

/-- Witness for C2 (amended): the QueryStatus arm with a dropped
receiver does not panic, and the concrete `replyDead` step panics with
the expected message. -/
theorem reply_drop_behavior_witness :
    handleDumpInfoMsg [] uid0 false = none ∧
      dead3.panicked = some "Dump actor is dead" :=
  ⟨reply_drop_behavior.1 [] uid0 false,
    reply_drop_behavior.2.1 dead2 dead3 dead_step23⟩

/-- C3: mutual exclusion.  In every reachable state at most one
registry record is `InProgress` and at most one handler holds the
Exclusion Gate (is anywhere inside the gated section of
`handle_create_dump`); a second concurrent CreateDump can therefore
only take the `AlreadyRunning` fast-reject step (`Step.tryLockFail`). -/
theorem create_dump_mutual_exclusion {init s : Sys} (hg : GoodInit init)
    (hr : Reachable init s) :
    s.infos.countP (fun kv => decide (kv.2.status = DumpStatus.inProgress)) ≤ 1 ∧
      csCount s.handlers ≤ 1 := by
  have hinv := inv_reachable hg hr
  refine ⟨?_, ?_⟩
  · refine countP_le_one_of_key hinv.keysNodup ?_
    intro x hx hpx y hy hpy
    rw [decide_eq_true_eq] at hpx hpy
    obtain ⟨h₁, hm₁, ha₁, hu₁⟩ := hinv.inprog x hx hpx
    obtain ⟨h₂, hm₂, ha₂, hu₂⟩ := hinv.inprog y hy hpy
    have heq : h₁ = h₂ := by
      have hc := hinv.lockCount
      cases hsl : s.lock with
      | false =>
          exfalso
          rw [hsl, if_neg (by simp)] at hc
          exact absurd (activeRec_inCS ha₁)
            (by simp [csCount_zero_no_mem hc h₁ hm₁])
      | true =>
          rw [hsl, if_pos rfl] at hc
          exact countP_eq_one_unique hc hm₁ (activeRec_inCS ha₁) hm₂
            (activeRec_inCS ha₂)
    rw [← hu₁, ← hu₂, heq]
  · rw [hinv.lockCount]
    split <;> omega

/-- Witness for C3 at the concrete run `trace0 → trace3`: one record,
one gate holder. -/
theorem create_dump_mutual_exclusion_witness :
    trace3.infos.countP (fun kv => decide (kv.2.status = DumpStatus.inProgress)) ≤ 1 ∧
      csCount trace3.handlers ≤ 1 :=
  create_dump_mutual_exclusion trace0_good reach_trace3

/-- C4: monotonic status lifecycle, as a frame property of every step
from a reachable state: (1) a key that appears in the registry appears
with status `InProgress` (no record is created directly `Done`/`Failed`),
and (2) an existing record that changes was `InProgress` and becomes
`Done` or `Failed` (so a record transitions at most once and never out
of `Done`/`Failed`); the change happens at the step where the dump task
resolves (`Step.finishOk`). -/
theorem registry_status_lifecycle {init s s' : Sys} {a : Act} (hg : GoodInit init)
    (hr : Reachable init s) (hs : Step s a s') :
    (∀ k v, lookupInfo s.infos k = none → lookupInfo s'.infos k = some v →
      v.status = DumpStatus.inProgress) ∧
    (∀ k v v', lookupInfo s.infos k = some v → lookupInfo s'.infos k = some v' →
      v' ≠ v → v.status = DumpStatus.inProgress ∧
        (v'.status = DumpStatus.done ∨ v'.status = DumpStatus.failed)) := by
  have hinv := inv_reachable hg hr
  cases hs with
  | tryLockFail infos pre post u o =>
      constructor
      · intro k v h1 h2
        rw [h1] at h2
        cases h2
      · intro k v v' h1 h2 hne
        rw [h1] at h2
        exact absurd (Option.some.inj h2).symm hne
  | tryLockFailDead infos pre post u o =>
      constructor
      · intro k v h1 h2
        rw [h1] at h2
        cases h2
      · intro k v v' h1 h2 hne
        rw [h1] at h2
        exact absurd (Option.some.inj h2).symm hne
  | tryLockOk infos pre post u al o =>
      constructor
      · intro k v h1 h2
        rw [h1] at h2
        cases h2
      · intro k v v' h1 h2 hne
        rw [h1] at h2
        exact absurd (Option.some.inj h2).symm hne
  | insertRec l infos pre post u al o =>
      have hfresh_u : lookupInfo infos u = none :=
        hinv.fresh (Handler.mk Pc.insert u al o none) (mem_mid_self _ _ _)
          (by simp [Pc.preInsert])
      constructor
      · intro k v h1 h2
        by_cases hk : k = u
        · subst hk
          rw [lookup_insert_self] at h2
          exact (Option.some.inj h2) ▸ rfl
        · rw [lookup_insert_other _ _ _ _ hk, h1] at h2
          cases h2
      · intro k v v' h1 h2 hne
        by_cases hk : k = u
        · subst hk
          rw [hfresh_u] at h1
          cases h1
        · rw [lookup_insert_other _ _ _ _ hk, h1] at h2
          exact absurd (Option.some.inj h2).symm hne
  | replyOk l infos pre post u o =>
      constructor
      · intro k v h1 h2
        rw [h1] at h2
        cases h2
      · intro k v v' h1 h2 hne
        rw [h1] at h2
        exact absurd (Option.some.inj h2).symm hne
  | replyDead l infos pre post u o =>
      constructor
      · intro k v h1 h2
        rw [h1] at h2
        cases h2
      · intro k v v' h1 h2 hne
        rw [h1] at h2
        exact absurd (Option.some.inj h2).symm hne
  | taskResolve l infos pre post u al o r =>
      constructor
      · intro k v h1 h2
        rw [h1] at h2
        cases h2
      · intro k v v' h1 h2 hne
        rw [h1] at h2
        exact absurd (Option.some.inj h2).symm hne
  | finishOk l infos pre post u al o r i hlook =>
      have hmid_look : lookupInfo infos u =
          some (DumpInfo.new u DumpStatus.inProgress) :=
        hinv.activeLook (Handler.mk Pc.finish u al o r) (mem_mid_self _ _ _)
          (by simp [Pc.activeRec])
      constructor
      · intro k v h1 h2
        dsimp only at h1
        rw [lookup_update] at h2
        by_cases hk : k = u
        · subst hk
          rw [if_pos rfl, h1] at h2
          simp at h2
        · rw [if_neg hk, h1] at h2
          cases h2
      · intro k v v' h1 h2 hne
        dsimp only at h1
        rw [lookup_update] at h2
        by_cases hk : k = u
        · subst hk
          rw [if_pos rfl, h1] at h2
          have hv : v = DumpInfo.new k DumpStatus.inProgress := by
            rw [hmid_look] at h1
            exact (Option.some.inj h1).symm
          refine ⟨by rw [hv]; rfl, ?_⟩
          have hv' : v' = resolveInfo v o := (Option.some.inj h2).symm
          rw [hv']
          exact resolveInfo_status_cases v o
        · rw [if_neg hk, h1] at h2
          exact absurd (Option.some.inj h2).symm hne
  | finishMissing l infos pre post u al o r hlook =>
      constructor
      · intro k v h1 h2
        rw [h1] at h2
        cases h2
      · intro k v v' h1 h2 hne
        rw [h1] at h2
        exact absurd (Option.some.inj h2).symm hne

/-- Witness for C4: the `insertRec` step of the concrete run creates
the record for `uid0` in state `InProgress`. -/
theorem registry_status_lifecycle_witness :
    (DumpInfo.new uid0 DumpStatus.inProgress).status = DumpStatus.inProgress :=
  (registry_status_lifecycle trace0_good reach_trace1 trace_step12).1 uid0
    (DumpInfo.new uid0 DumpStatus.inProgress) rfl (lookup_insert_self _ _ _)

/-- C5: insert-before-reply ordering.  (1) Whenever a handler is about
to send its acceptance reply (`pc = reply`), its record is already in
the registry — the insert (actor.rs:113) precedes the send
(actor.rs:118); consequently (2) for every handler whose acceptance
reply `Ok(info)` was delivered, a QueryStatus with the identifier taken
from that reply succeeds (never `DumpDoesNotExist`). -/
theorem insert_before_reply {init s : Sys} (hg : GoodInit init)
    (hr : Reachable init s) :
    (∀ h ∈ s.handlers, h.pc = Pc.reply → lookupInfo s.infos h.uid ≠ none) ∧
    (∀ h ∈ s.handlers, ∀ info, h.replied = some (Except.ok info) →
      ∃ r, handle_dump_info s.infos info.uid = Except.ok r) := by
  have hinv := inv_reachable hg hr
  constructor
  · intro h hm hpc
    rw [hinv.activeLook h hm (by simp [hpc, Pc.activeRec])]
    simp
  · intro h hm info hrep
    obtain ⟨hinfo, hpost⟩ := hinv.repliedOk h hm info hrep
    have huid : info.uid = h.uid := by rw [hinfo]; rfl
    rw [huid]
    have hlk : lookupInfo s.infos h.uid ≠ none := by
      have hsplit : h.pc.activeRec = true ∨ h.pc = Pc.doneOk := by
        revert hpost
        cases h.pc <;> simp [Pc.postInsert, Pc.activeRec]
      rcases hsplit with ha | hd
      · rw [hinv.activeLook h hm ha]
        simp
      · exact hinv.doneLook h hm hd
    unfold handle_dump_info
    cases hl : lookupInfo s.infos h.uid with
    | none => exact absurd hl hlk
    | some r => exact ⟨r, rfl⟩

/-- Witness for C5 at the concrete run: after the reply in `trace3`,
querying the identifier from the reply succeeds. -/
theorem insert_before_reply_witness :
    ∃ r, handle_dump_info trace3.infos
      (DumpInfo.new uid0 DumpStatus.inProgress).uid = Except.ok r :=
  (insert_before_reply trace0_good reach_trace3).2
    (Handler.mk Pc.await uid0 true TaskOutcome.success
      (some (Except.ok (DumpInfo.new uid0 DumpStatus.inProgress))))
    (List.mem_cons_self _ _) (DumpInfo.new uid0 DumpStatus.inProgress) rfl

/-- C6: crash containment.  If the spawned dump task of a handler at
`finish` terminated by panic (`outcome = panicked`, i.e. the
`spawn(..).await` returned `Err(JoinError)`), the handler's next step
exists and transitions the record to `Failed` with the generic
"Unexpected error while performing dump." message — the record does not
stay `InProgress` — and afterwards the actor has not panicked
(`panicked = none`) and the gate is free (`lock = false`), so
subsequent requests are served. -/
theorem crash_containment {init s : Sys} (hg : GoodInit init)
    (hr : Reachable init s) (pre post : List Handler) (u : String) (al : Bool)
    (r : Option (DumpResult DumpInfo))
    (hh : s.handlers = pre ++ Handler.mk Pc.finish u al TaskOutcome.panicked r :: post)
    (hpan : s.panicked = none) :
    ∃ s', Step s Act.finishOk s' ∧
      lookupInfo s'.infos u =
        some (DumpInfo.mk u DumpStatus.failed
          (some "Unexpected error while performing dump.")) ∧
      s'.lock = false ∧ s'.panicked = none := by
  have hinv := inv_reachable hg hr
  have hmid : lookupInfo s.infos u = some (DumpInfo.new u DumpStatus.inProgress) := by
    have hlk := hinv.activeLook (Handler.mk Pc.finish u al TaskOutcome.panicked r)
      (by rw [hh]; exact mem_mid_self _ _ _) (by simp [Pc.activeRec])
    exact hlk
  obtain ⟨l, infos, hs, pan⟩ := s
  dsimp only at hh hpan hmid
  subst hh
  subst hpan
  refine ⟨_, Step.finishOk l infos pre post u al TaskOutcome.panicked r
    (DumpInfo.new u DumpStatus.inProgress) hmid, ?_, rfl, rfl⟩
  rw [lookup_update, if_pos rfl, hmid]
  rfl

/-- Witness for C6 at the concrete panicking run `pan0 → pan4`. -/
theorem crash_containment_witness :
    ∃ s', Step pan4 Act.finishOk s' ∧
      lookupInfo s'.infos uid0 =
        some (DumpInfo.mk uid0 DumpStatus.failed
          (some "Unexpected error while performing dump.")) ∧
      s'.lock = false ∧ s'.panicked = none :=
  crash_containment pan0_good reach_pan4 [] [] uid0 true
    (some (Except.ok (DumpInfo.new uid0 DumpStatus.inProgress))) rfl rfl

/-- C7: fast-reject frame condition.  A `tryLockFail` step — the only
step a CreateDump attempt can take while the gate is held — replies
`DumpError::DumpAlreadyRunning`, moves the handler to the terminal
`rejected` position (so no dump task is ever launched for it), and
changes nothing else: the registry is untouched and the gate state is
untouched. -/
theorem fast_reject_frame {s s' : Sys} (hs : Step s Act.tryLockFail s') :
    s.lock = true ∧ s'.lock = true ∧ s'.infos = s.infos ∧
      ∃ pre h post, s.handlers = pre ++ h :: post ∧ h.pc = Pc.tryLock ∧
        s'.handlers = pre ++ Handler.mk Pc.rejected h.uid h.replyAlive h.outcome
          (some (Except.error DumpError.dumpAlreadyRunning)) :: post := by
  cases hs with
  | tryLockFail infos pre post u o =>
      exact ⟨rfl, rfl, rfl, pre, Handler.mk Pc.tryLock u true o none, post,
        rfl, rfl, rfl⟩

/-- Witness for C7 at a concrete rejected attempt. -/
theorem fast_reject_frame_witness :
    rejS.lock = true ∧ rejS'.lock = true ∧ rejS'.infos = rejS.infos ∧
      ∃ pre h post, rejS.handlers = pre ++ h :: post ∧ h.pc = Pc.tryLock ∧
        rejS'.handlers = pre ++ Handler.mk Pc.rejected h.uid h.replyAlive h.outcome
          (some (Except.error DumpError.dumpAlreadyRunning)) :: post :=
  fast_reject_frame rej_step

/-- C8: after the dump task resolves, the registry lookup by the
handler's identifier succeeds: no operation ever removes an entry, so
in every reachable state a handler at `finish` finds its record, and
the fatal `expect("dump entry deleted while lock was acquired")` branch
(`Step.finishMissing`) is unreachable — no reachable state carries that
panic message. -/
theorem resolve_lookup_never_fatal {init s : Sys} (hg : GoodInit init)
    (hr : Reachable init s) :
    s.panicked ≠ some "dump entry deleted while lock was acquired" ∧
      ∀ h ∈ s.handlers, h.pc = Pc.finish → lookupInfo s.infos h.uid ≠ none := by
  have hinv := inv_reachable hg hr
  refine ⟨panicked_not_fatal hg hr, ?_⟩
  intro h hm hpc
  rw [hinv.activeLook h hm (by simp [hpc, Pc.activeRec])]
  simp

/-- Witness for C8 at the concrete run: the handler at `finish` in
`trace4` finds its record. -/
theorem resolve_lookup_never_fatal_witness :
    lookupInfo trace4.infos uid0 ≠ none :=
  (resolve_lookup_never_fatal trace0_good reach_trace4).2
    (Handler.mk Pc.finish uid0 true TaskOutcome.success
      (some (Except.ok (DumpInfo.new uid0 DumpStatus.inProgress))))
    (List.mem_cons_self _ _) rfl

/-- C10: key-record consistency.  In every reachable state the
identifier stored inside each registry record equals the key it is
stored under, so a successful `QueryStatus(uid)` returns a record whose
identifier field equals `uid`. -/
theorem registry_key_uid_consistency {init s : Sys} (hg : GoodInit init)
    (hr : Reachable init s) :
    (∀ kv ∈ s.infos, kv.2.uid = kv.1) ∧
      ∀ u r, handle_dump_info s.infos u = Except.ok r → r.uid = u := by
  have hinv := inv_reachable hg hr
  refine ⟨hinv.keyUid, ?_⟩
  intro u r hok
  unfold handle_dump_info at hok
  cases hl : lookupInfo s.infos u with
  | none =>
      rw [hl] at hok
      simp at hok
  | some v =>
      rw [hl] at hok
      simp only [Except.ok.injEq] at hok
      rw [← hok]
      exact hinv.keyUid (u, v) (lookup_mem hl)

/-- Witness for C10 at the concrete run: querying `uid0` in `trace3`
returns the record whose identifier is `uid0`. -/
theorem registry_key_uid_consistency_witness :
    (DumpInfo.new uid0 DumpStatus.inProgress).uid = uid0 :=
  (registry_key_uid_consistency trace0_good reach_trace3).2 uid0
    (DumpInfo.new uid0 DumpStatus.inProgress) rfl
